import Mathlib

/-!
Verification of the spendlog wallet CLI (`src/main.rs`) against its
natural-language specification.  The Rust program records double-entry
postings between ledgers in a PostgreSQL store and produces time-windowed
reports.  Below, the store is modelled as an explicit in-memory state
(`WalletDB`), the SQL aggregate queries are translated into list
filters/maps/sorts over that state, and monetary `f64` amounts are
modelled as rationals (`Rat`).  Timestamps are modelled by their calendar
components; comparison uses an injective monotone integer key that agrees
with chrono's lexicographic `Ord` on calendar-valid component values.
-/

namespace Spendlog

/-- Model of `chrono::NaiveDate`: a calendar date. -/
structure NaiveDate where
  year : Int
  month : Nat
  day : Nat
deriving DecidableEq, Repr

/-- Model of `chrono::NaiveDateTime`: a calendar date with a time of day
(nanoseconds are not modelled; no claim depends on them). -/
structure NaiveDateTime where
  date : NaiveDate
  hour : Nat
  minute : Nat
  second : Nat
deriving DecidableEq, Repr

/-- Integer key encoding a date.  For calendar-valid components
(`month ≤ 12`, `day ≤ 31`) this is strictly monotone in the
lexicographic (year, month, day) order used by chrono's `Ord` —
see `NaiveDate.key_lt_iff`. -/
def NaiveDate.key (d : NaiveDate) : Int :=
  d.year * 512 + d.month * 32 + d.day

/-- Integer key encoding a datetime; monotone in the lexicographic
component order for in-range values. -/
def NaiveDateTime.key (t : NaiveDateTime) : Int :=
  t.date.key * 86400 + t.hour * 3600 + t.minute * 60 + t.second

/-- The date key order agrees with lexicographic date order on
calendar-valid components. -/
theorem NaiveDate.key_lt_iff (a b : NaiveDate)
    (ha1 : a.month ≤ 12) (ha2 : a.day ≤ 31) (hb1 : b.month ≤ 12) (hb2 : b.day ≤ 31) :
    a.key < b.key ↔
      (a.year < b.year ∨ (a.year = b.year ∧
        (a.month < b.month ∨ (a.month = b.month ∧ a.day < b.day)))) := by
  unfold NaiveDate.key
  omega

/-- A row of the `ledgers` table (`create table ledgers` in `setup_db`). -/
structure Ledger where
  id : Int
  code : String
  name : String
  description : String
  sort : String
  kind : String
deriving DecidableEq, Repr

/-- A row of the `proceedings` table: one double-entry posting crediting
`cr_from` and debiting `db_to`. -/
structure Proceeding where
  cr_from : Int
  db_to : Int
  amount : Rat
  narration : String
  created_at : NaiveDateTime
deriving DecidableEq, Repr

/-- The persistent store the program talks to. -/
structure WalletDB where
  ledgers : List Ledger
  proceedings : List Proceeding
deriving DecidableEq, Repr

/-- Model of `postgres::Error` as far as the program observes it: the only
store error the claims touch is `query_one` finding an unexpected number
of rows. -/
inductive PgError where
  | unexpectedRowCount : PgError
deriving DecidableEq, Repr

/-- The program's error enum `WalletError` (src/main.rs lines 15-33). -/
inductive WalletError where
  | Database (e : PgError)
  | InvalidAmount (msg : String)
  | LedgerNotFound (msg : String)
  | ParseFail (msg : String)
  | InvalidDate (msg : String)
  | DateRangeError (msg : String)
  | InvalidMonth (msg : String)
  | InvalidCap (msg : String)
deriving DecidableEq, Repr

/-- Discriminator: is this error the `InvalidDate` kind? -/
def WalletError.isInvalidDate : WalletError → Bool
  | .InvalidDate _ => true
  | _ => false

/-- Discriminator: is this error the `DateRangeError` kind? -/
def WalletError.isDateRangeError : WalletError → Bool
  | .DateRangeError _ => true
  | _ => false

/-- Discriminator: is this error the `LedgerNotFound` kind? -/
def WalletError.isLedgerNotFound : WalletError → Bool
  | .LedgerNotFound _ => true
  | _ => false

/-- Discriminator: is this error the `InvalidMonth` kind? -/
def WalletError.isInvalidMonth : WalletError → Bool
  | .InvalidMonth _ => true
  | _ => false

/-- A result fails with the `InvalidDate` kind. -/
def failsInvalidDate {α : Type} : Except WalletError α → Bool
  | .error e => e.isInvalidDate
  | .ok _ => false

/-- The period specifier enum `ReportPeriod` (src/main.rs lines 35-43). -/
inductive ReportPeriod where
  | Today
  | Week
  | Month
  | All
  | Date (d : String)
  | FromTo (fromS toS : String)
deriving DecidableEq, Repr

/-- The argument-combination match of the `Report` command
(src/main.rs lines 980-1005): turns the optional period / --date /
--from / --to arguments into a single `ReportPeriod` or rejects the
combination with `InvalidDate`, before any report query is issued. -/
def reportPeriodArgs (period : Option ReportPeriod)
    (date fromArg toArg : Option String) : Except WalletError ReportPeriod :=
  match period, date, fromArg, toArg with
  | some p, none, none, none => .ok p
  | none, some d, none, none => .ok (.Date d)
  | none, none, some f, some t => .ok (.FromTo f t)
  | none, none, none, none => .ok .All
  | some _, some _, _, _ =>
      .error (.InvalidDate "Cannot specify both a period and a date.")
  | some _, _, some _, some _ =>
      .error (.InvalidDate "Cannot specify both a period and a date range.")
  | none, none, some _, none =>
      .error (.InvalidDate "Must specify both --from and --to dates for a date range.")
  | none, none, none, some _ =>
      .error (.InvalidDate "Must specify both --from and --to dates for a date range.")
  | _, _, _, _ =>
      .error (.InvalidDate "Invalid combination of arguments.")

/-- The argument-combination match of the `LedgerReport` command
(src/main.rs lines 1018-1043); structurally identical to
`reportPeriodArgs`, duplicated in the source. -/
def ledgerReportPeriodArgs (period : Option ReportPeriod)
    (date fromArg toArg : Option String) : Except WalletError ReportPeriod :=
  match period, date, fromArg, toArg with
  | some p, none, none, none => .ok p
  | none, some d, none, none => .ok (.Date d)
  | none, none, some f, some t => .ok (.FromTo f t)
  | none, none, none, none => .ok .All
  | some _, some _, _, _ =>
      .error (.InvalidDate "Cannot specify both a period and a date.")
  | some _, _, some _, some _ =>
      .error (.InvalidDate "Cannot specify both a period and a date range.")
  | none, none, some _, none =>
      .error (.InvalidDate "Must specify both --from and --to dates for a date range.")
  | none, none, none, some _ =>
      .error (.InvalidDate "Must specify both --from and --to dates for a date range.")
  | _, _, _, _ =>
      .error (.InvalidDate "Invalid combination of arguments.")

/-- A request supplies conflicting shapes: a period together with a date
or any range piece, a date together with a range piece, or only one side
of the from/to range. -/
def conflictingShapes (period : Option ReportPeriod)
    (date fromArg toArg : Option String) : Bool :=
  (period.isSome && (date.isSome || fromArg.isSome || toArg.isSome)) ||
  (date.isSome && (fromArg.isSome || toArg.isSome)) ||
  (fromArg.isSome != toArg.isSome)

/-- Claim C9: for both the report and ledger-report commands, any request
supplying more than one request shape (a named period together with an
explicit date or an explicit from/to range), or only one side of a
from/to range, fails with the `InvalidDate` error kind.  The failure
happens in the pure argument match of `main`, before any store query
executes. -/
theorem report_args_conflicting_shapes_invalid_date
    (period : Option ReportPeriod) (date fromArg toArg : Option String)
    (h : conflictingShapes period date fromArg toArg = true) :
    failsInvalidDate (reportPeriodArgs period date fromArg toArg) = true ∧
    failsInvalidDate (ledgerReportPeriodArgs period date fromArg toArg) = true := by
  cases period <;> cases date <;> cases fromArg <;> cases toArg <;>
    simp_all [conflictingShapes, reportPeriodArgs, ledgerReportPeriodArgs,
      failsInvalidDate, WalletError.isInvalidDate]

/-- Witness for C9: a period together with an explicit date is rejected
with `InvalidDate` by both commands. -/
theorem report_args_conflicting_shapes_invalid_date_witness :
    failsInvalidDate (reportPeriodArgs (some .Today) (some "2025-01-01") none none) = true ∧
    failsInvalidDate (ledgerReportPeriodArgs (some .Today) (some "2025-01-01") none none) = true :=
  report_args_conflicting_shapes_invalid_date (some .Today) (some "2025-01-01") none none
    (by decide)

/-- Split a character list on a separator character (the splitting
behaviour of `str.split` on a one-character separator). -/
def splitOnChar (sep : Char) : List Char → List (List Char)
  | [] => [[]]
  | c :: rest =>
    let r := splitOnChar sep rest
    if c = sep then [] :: r
    else
      match r with
      | [] => [[c]]
      | g :: gs => (c :: g) :: gs

/-- A nonempty all-digit character group. -/
def isDigits (l : List Char) : Bool :=
  !l.isEmpty && l.all (·.isDigit)

/-- Decimal value of a digit group. -/
def natOfDigits (l : List Char) : Nat :=
  l.foldl (fun acc c => acc * 10 + (c.toNat - 48)) 0

/-- Gregorian leap-year rule (as used by chrono). -/
def isLeapYear (y : Int) : Bool :=
  (y % 4 == 0 && y % 100 != 0) || (y % 400 == 0)

/-- Number of days in a month of a given year. -/
def daysInMonth (y : Int) (m : Nat) : Nat :=
  if m = 2 then (if isLeapYear y then 29 else 28)
  else if m = 4 ∨ m = 6 ∨ m = 9 ∨ m = 11 then 30
  else 31

/-- Model of `chrono::NaiveDate::parse_from_str(s, "%Y-%m-%d")` (a library
call, not repository code): three dash-separated digit groups forming a
calendar-valid date; anything else is a parse failure. -/
def parseYmdChars (l : List Char) : Option NaiveDate :=
  match splitOnChar '-' l with
  | [ys, ms, ds] =>
    if isDigits ys && isDigits ms && isDigits ds
        && ys.length ≤ 4 && ms.length ≤ 2 && ds.length ≤ 2 then
      let y : Int := natOfDigits ys
      let m := natOfDigits ms
      let d := natOfDigits ds
      if 1 ≤ m ∧ m ≤ 12 ∧ 1 ≤ d ∧ d ≤ daysInMonth y m then some ⟨y, m, d⟩ else none
    else none
  | _ => none

/-- `parseYmdChars` applied to a string's characters. -/
def parseYmd (s : String) : Option NaiveDate :=
  parseYmdChars s.data

/-- Model of `chrono::NaiveDateTime::parse_from_str(s, "%Y-%m-%d %H:%M:%S")`
(a library call): a parsable date, a space, and a valid H:M:S time. -/
def parseYmdHms (s : String) : Option NaiveDateTime :=
  match splitOnChar ' ' s.data with
  | [datePart, timePart] =>
    match parseYmdChars datePart, splitOnChar ':' timePart with
    | some d, [hs, mins, ss] =>
      if isDigits hs && isDigits mins && isDigits ss
          && hs.length ≤ 2 && mins.length ≤ 2 && ss.length ≤ 2 then
        let h := natOfDigits hs
        let mi := natOfDigits mins
        let sec := natOfDigits ss
        if h ≤ 23 ∧ mi ≤ 59 ∧ sec ≤ 59 then some ⟨d, h, mi, sec⟩ else none
      else none
    | _, _ => none
  | _ => none

/-- A resolved report window: a start instant and an optional inclusive
end instant (`none` = open-ended). -/
structure Window where
  start : NaiveDateTime
  stop : Option NaiveDateTime
deriving DecidableEq, Repr

/-- The SQL window predicate: `created_at >= start` and, when the window
is closed, `created_at <= stop`. -/
def inWindow (w : Window) (t : NaiveDateTime) : Bool :=
  decide (w.start.key ≤ t.key) &&
    (match w.stop with
     | none => true
     | some e => decide (t.key ≤ e.key))

deriving instance DecidableEq for Except

/-- The `ReportPeriod::All` arm of the period resolution match
(src/main.rs lines 170-174): parses the fixed epoch string and leaves the
end open. -/
def allPeriodWindow : Except WalletError (Window × String) :=
  match parseYmdHms "1970-01-01 00:00:00" with
  | some dt => .ok (⟨dt, none⟩, "All Time")
  | none => .error (.ParseFail "parse failure")

/-- Claim C10: with no period, no explicit date and no from/to range,
both the report and the ledger-report argument matches fall through to
the `All` period rather than rejecting, and `All` resolves to the window
starting at the 1970-01-01 00:00:00 epoch with an open end. -/
theorem no_args_defaults_to_all_period :
    reportPeriodArgs none none none none = .ok .All ∧
    ledgerReportPeriodArgs none none none none = .ok .All ∧
    allPeriodWindow = .ok (⟨⟨⟨1970, 1, 1⟩, 0, 0, 0⟩, none⟩, "All Time") := by
  refine ⟨rfl, rfl, ?_⟩
  decide

/-- Model of `postgres` `Client::query_one` on an already-filtered row
list: exactly one row succeeds, any other count is a store error. -/
def queryOne {α : Type} (rows : List α) : Except PgError α :=
  match rows with
  | [x] => .ok x
  | _ => .error .unexpectedRowCount

/-- `WalletDB::retrieve_ledger_id` (src/main.rs lines 90-95):
`query_one("SELECT id FROM ledgers WHERE code = $1")`, with the store
error converted by the `?` operator through `From<PgError>` into
`WalletError::Database`. -/
def retrieveLedgerId (db : WalletDB) (code : String) : Except WalletError Int :=
  match queryOne ((db.ledgers.filter (fun l => l.code == code)).map (fun l => l.id)) with
  | .ok i => .ok i
  | .error e => .error (.Database e)

/-- Counterexample to claim C3 as stated: with a store holding only a
ledger coded CASH, resolving the unknown code NOPE fails with the
`Database` error kind (the converted no-rows store error), not with
`LedgerNotFound`. -/
theorem retrieve_unknown_code_not_ledger_not_found :
    retrieveLedgerId ⟨[⟨1, "CASH", "Cash", "", "DR", "ASSET"⟩], []⟩ "NOPE"
        = .error (.Database .unexpectedRowCount) ∧
    (match retrieveLedgerId ⟨[⟨1, "CASH", "Cash", "", "DR", "ASSET"⟩], []⟩ "NOPE" with
      | .error e => e.isLedgerNotFound
      | .ok _ => false) = false := by
  decide

/-- Claim C3 (amended): whenever no ledger has the requested code, the
lookup fails with the `Database` error kind carrying the store's
unexpected-row-count failure. -/
theorem retrieve_unknown_code_fails_database
    (db : WalletDB) (code : String)
    (h : db.ledgers.filter (fun l => l.code == code) = []) :
    retrieveLedgerId db code = .error (.Database .unexpectedRowCount) := by
  unfold retrieveLedgerId queryOne
  rw [h]
  rfl

/-- Witness for the amended C3 at a concrete store and code. -/
theorem retrieve_unknown_code_fails_database_witness :
    retrieveLedgerId ⟨[⟨1, "CASH", "Cash", "", "DR", "ASSET"⟩], []⟩ "GROC"
        = .error (.Database .unexpectedRowCount) :=
  retrieve_unknown_code_fails_database
    ⟨[⟨1, "CASH", "Cash", "", "DR", "ASSET"⟩], []⟩ "GROC" (by decide)

/-- `WalletDB::proceed_spend` (src/main.rs lines 97-134): validates the
amount, resolves both ledger codes, then appends exactly one posting row
(with the caller-supplied `created_at` when given, otherwise the store
clock `storeNow`). -/
def proceedSpend (db : WalletDB) (patron outlay : String) (amount : Rat)
    (narration : String) (created_at : Option NaiveDateTime)
    (storeNow : NaiveDateTime) : Except WalletError WalletDB :=
  if amount ≤ 0 then
    .error (.InvalidAmount "Amount must be positive")
  else
    match retrieveLedgerId db patron with
    | .error e => .error e
    | .ok patron_id =>
      match retrieveLedgerId db outlay with
      | .error e => .error e
      | .ok outlay_id =>
        let ts := match created_at with
          | some c => c
          | none => storeNow
        .ok { db with
              proceedings := db.proceedings ++ [⟨patron_id, outlay_id, amount, narration, ts⟩] }

/-- Claim C4: a spend request with `amount ≤ 0` fails with `InvalidAmount`
for every store state — so no ledger resolution outcome can influence the
error and no posting row is written (an error returns no new state) —
and every successful spend has a strictly positive amount, appending
exactly one row carrying that amount, so positivity of all stored
amounts is preserved. -/
theorem proceed_spend_amount_validation :
    (∀ (db : WalletDB) (patron outlay : String) (amount : Rat) (narration : String)
        (c : Option NaiveDateTime) (storeNow : NaiveDateTime),
      amount ≤ 0 →
        proceedSpend db patron outlay amount narration c storeNow
          = .error (.InvalidAmount "Amount must be positive")) ∧
    (∀ (db : WalletDB) (patron outlay : String) (amount : Rat) (narration : String)
        (c : Option NaiveDateTime) (storeNow : NaiveDateTime) (db' : WalletDB),
      proceedSpend db patron outlay amount narration c storeNow = .ok db' →
        0 < amount ∧
        (∀ q ∈ db'.proceedings, q ∈ db.proceedings ∨ q.amount = amount) ∧
        ((∀ q ∈ db.proceedings, 0 < q.amount) → ∀ q ∈ db'.proceedings, 0 < q.amount)) := by
  constructor
  · intro db patron outlay amount narration c storeNow h
    unfold proceedSpend
    rw [if_pos h]
  · intro db patron outlay amount narration c storeNow db' h
    unfold proceedSpend at h
    by_cases hle : amount ≤ 0
    · rw [if_pos hle] at h
      exact absurd h (by simp)
    · rw [if_neg hle] at h
      have hpos : 0 < amount := lt_of_not_le hle
      refine ⟨hpos, ?_⟩
      cases hp : retrieveLedgerId db patron with
      | error e => rw [hp] at h; simp at h
      | ok patron_id =>
        cases ho : retrieveLedgerId db outlay with
        | error e => rw [hp, ho] at h; simp at h
        | ok outlay_id =>
          rw [hp, ho] at h
          simp only [Except.ok.injEq] at h
          subst h
          constructor
          · intro q hq
            simp only [List.mem_append, List.mem_singleton] at hq
            rcases hq with hin | rfl
            · exact Or.inl hin
            · right; rfl
          · intro hinv q hq
            simp only [List.mem_append, List.mem_singleton] at hq
            rcases hq with hin | rfl
            · exact hinv q hin
            · exact hpos

/-- Witness for C4 at concrete inputs: a negative spend is rejected with
`InvalidAmount` even though neither ledger code exists, and a concrete
successful spend has a positive amount. -/
theorem proceed_spend_amount_validation_witness :
    proceedSpend ⟨[], []⟩ "CASH" "FOOD" (-5) "tea" none ⟨⟨2025, 1, 1⟩, 0, 0, 0⟩
        = .error (.InvalidAmount "Amount must be positive") ∧
    (0 : Rat) < 50 :=
  ⟨proceed_spend_amount_validation.1 ⟨[], []⟩ "CASH" "FOOD" (-5) "tea" none
      ⟨⟨2025, 1, 1⟩, 0, 0, 0⟩ (by norm_num),
   (proceed_spend_amount_validation.2
      ⟨[⟨1, "CASH", "Cash", "", "DR", "ASSET"⟩, ⟨2, "FOOD", "Food", "", "DR", "EXPENSE"⟩], []⟩
      "CASH" "FOOD" 50 "lunch" none ⟨⟨2025, 1, 1⟩, 12, 0, 0⟩
      ⟨[⟨1, "CASH", "Cash", "", "DR", "ASSET"⟩, ⟨2, "FOOD", "Food", "", "DR", "EXPENSE"⟩],
        [⟨1, 2, 50, "lunch", ⟨⟨2025, 1, 1⟩, 12, 0, 0⟩⟩]⟩
      (by decide)).1⟩

/-- Folding `acc + f x` over a list starting from `a` yields `a` plus the
sum of the mapped values (the running-total loops of the report code). -/
theorem foldl_add_eq {α : Type} (f : α → Rat) (l : List α) :
    ∀ a : Rat, l.foldl (fun acc x => acc + f x) a = a + (l.map f).sum := by
  induction l with
  | nil => intro a; simp
  | cons x l ih => intro a; simp [ih, add_assoc]

/-- In-window debits of a ledger id: the `SELECT SUM(p.amount) FROM
proceedings WHERE db_to = l.id AND created_at in window` subquery of
`generate_spending_report` (with `COALESCE(..., 0)` giving 0 on the empty
sum, as `List.sum [] = 0` does here). -/
def ledgerDebits (db : WalletDB) (w : Window) (lid : Int) : Rat :=
  ((db.proceedings.filter fun p => p.db_to == lid && inWindow w p.created_at).map
    fun p => p.amount).sum

/-- In-window credits of a ledger id: the `cr_from = l.id` subquery. -/
def ledgerCredits (db : WalletDB) (w : Window) (lid : Int) : Rat :=
  ((db.proceedings.filter fun p => p.cr_from == lid && inWindow w p.created_at).map
    fun p => p.amount).sum

/-- The `CASE WHEN l.kind = 'LIABILITY'` net-amount column of
`generate_spending_report` (src/main.rs lines 211-299). -/
def ledgerNet (db : WalletDB) (w : Window) (l : Ledger) : Rat :=
  if l.kind = "LIABILITY" then ledgerDebits db w l.id - ledgerCredits db w l.id
  else ledgerDebits db w l.id

/-- One output row of the all-ledgers spending report. -/
structure SpendRow where
  code : String
  name : String
  net : Rat
deriving DecidableEq, Repr

/-- Descending-net order used by the report's `ORDER BY amount DESC`. -/
def spendRowRel (a b : SpendRow) : Prop := b.net ≤ a.net

instance : DecidableRel spendRowRel :=
  fun a b => inferInstanceAs (Decidable (b.net ≤ a.net))

instance : IsTotal SpendRow spendRowRel :=
  ⟨fun a b => le_total b.net a.net⟩

instance : IsTrans SpendRow spendRowRel :=
  ⟨fun _ _ _ hab hbc => le_trans hbc hab⟩

/-- One report row per ledger, before ordering. -/
def spendingRowsUnsorted (db : WalletDB) (w : Window) : List SpendRow :=
  db.ledgers.map fun l => ⟨l.code, l.name, ledgerNet db w l⟩

/-- The rows of the all-ledgers spending report, ordered by net
descending (`ORDER BY amount DESC`). -/
def spendingRows (db : WalletDB) (w : Window) : List SpendRow :=
  List.insertionSort spendRowRel (spendingRowsUnsorted db w)

/-- The running grand total accumulated over the printed rows
(src/main.rs lines 311-318). -/
def spendingGrandTotal (db : WalletDB) (w : Window) : Rat :=
  (spendingRows db w).foldl (fun acc r => acc + r.net) 0

/-- Claim C1: in the all-ledgers net-balance report over a resolved
window, a LIABILITY ledger nets in-window debits minus in-window
credits and every other ledger nets in-window debits alone; the rows are
exactly one per ledger, ordered by net descending (`spendRowRel`), and
the grand total equals the sum of all per-ledger net values. -/
theorem spending_report_net_order_total (db : WalletDB) (w : Window) :
    (∀ l : Ledger, ledgerNet db w l =
      if l.kind = "LIABILITY" then ledgerDebits db w l.id - ledgerCredits db w l.id
      else ledgerDebits db w l.id) ∧
    List.Perm (spendingRows db w)
      (db.ledgers.map fun l => SpendRow.mk l.code l.name (ledgerNet db w l)) ∧
    (spendingRows db w).Sorted spendRowRel ∧
    spendingGrandTotal db w = (db.ledgers.map fun l => ledgerNet db w l).sum := by
  refine ⟨fun l => rfl, List.perm_insertionSort _ _, List.sorted_insertionSort _ _, ?_⟩
  calc spendingGrandTotal db w
      = 0 + ((spendingRows db w).map SpendRow.net).sum :=
        foldl_add_eq SpendRow.net (spendingRows db w) 0
    _ = ((spendingRows db w).map SpendRow.net).sum := by rw [zero_add]
    _ = ((spendingRowsUnsorted db w).map SpendRow.net).sum :=
        ((List.perm_insertionSort spendRowRel (spendingRowsUnsorted db w)).map
          SpendRow.net).sum_eq
    _ = (db.ledgers.map fun l => ledgerNet db w l).sum := by
        unfold spendingRowsUnsorted
        rw [List.map_map]
        rfl

/-- One printed row of the per-ledger statement report. -/
structure StmtRow where
  created_at : NaiveDateTime
  counterparty : String
  narration : String
  credit : Rat
  debit : Rat
deriving DecidableEq, Repr

/-- The `SELECT code FROM ledgers WHERE id = ...` scalar subquery of the
statement report (returns SQL NULL when the id is absent; the model
returns the empty string, a case no claim depends on). -/
def ledgerCodeOf (db : WalletDB) (lid : Int) : String :=
  match db.ledgers.find? fun l => l.id == lid with
  | some l => l.code
  | none => ""

/-- The column expressions of the statement query (src/main.rs lines
408-454): counterparty is whichever end is not the reported ledger,
credit is the amount when the ledger is `cr_from`, debit when it is
`db_to`. -/
def stmtRowOf (db : WalletDB) (lid : Int) (p : Proceeding) : StmtRow :=
  ⟨p.created_at,
   if p.cr_from = lid then ledgerCodeOf db p.db_to else ledgerCodeOf db p.cr_from,
   p.narration,
   if p.cr_from = lid then p.amount else 0,
   if p.db_to = lid then p.amount else 0⟩

/-- The statement query's WHERE clause: postings touching the ledger,
restricted to the resolved window. -/
def stmtFilter (db : WalletDB) (w : Window) (lid : Int) : List Proceeding :=
  db.proceedings.filter fun p => (p.cr_from == lid || p.db_to == lid) && inWindow w p.created_at

/-- Descending `created_at` order (`ORDER BY p.created_at DESC`). -/
def stmtRel (a b : StmtRow) : Prop := b.created_at.key ≤ a.created_at.key

instance : DecidableRel stmtRel :=
  fun a b => inferInstanceAs (Decidable (b.created_at.key ≤ a.created_at.key))

instance : IsTotal StmtRow stmtRel :=
  ⟨fun a b => le_total b.created_at.key a.created_at.key⟩

instance : IsTrans StmtRow stmtRel :=
  ⟨fun _ _ _ hab hbc => le_trans hbc hab⟩

/-- The displayed statement rows, newest first. -/
def stmtRows (db : WalletDB) (w : Window) (lid : Int) : List StmtRow :=
  List.insertionSort stmtRel ((stmtFilter db w lid).map (stmtRowOf db lid))

/-- Running credit total over the printed rows (src/main.rs line 485). -/
def stmtTotalCredits (db : WalletDB) (w : Window) (lid : Int) : Rat :=
  (stmtRows db w lid).foldl (fun acc r => acc + r.credit) 0

/-- Running debit total over the printed rows (src/main.rs line 486). -/
def stmtTotalDebits (db : WalletDB) (w : Window) (lid : Int) : Rat :=
  (stmtRows db w lid).foldl (fun acc r => acc + r.debit) 0

/-- `net_balance = total_debits - total_credits` (src/main.rs line 498). -/
def stmtNetBalance (db : WalletDB) (w : Window) (lid : Int) : Rat :=
  stmtTotalDebits db w lid - stmtTotalCredits db w lid

/-- Claim C5: the per-ledger statement lists exactly the in-window
postings touching the ledger (as a permutation of the filtered map),
ordered by `created_at` descending; the credit column is the amount
exactly when the ledger is the credit side and the debit column exactly
when it is the debit side; and the reported net balance equals total
debits minus total credits summed over exactly the displayed
(window-filtered) rows. -/
theorem ledger_statement_rows_and_net (db : WalletDB) (w : Window) (lid : Int) :
    List.Perm (stmtRows db w lid) ((stmtFilter db w lid).map (stmtRowOf db lid)) ∧
    (stmtRows db w lid).Sorted stmtRel ∧
    (∀ p : Proceeding,
      (stmtRowOf db lid p).credit = (if p.cr_from = lid then p.amount else 0) ∧
      (stmtRowOf db lid p).debit = (if p.db_to = lid then p.amount else 0)) ∧
    stmtNetBalance db w lid =
      ((stmtFilter db w lid).map fun p => if p.db_to = lid then p.amount else 0).sum -
      ((stmtFilter db w lid).map fun p => if p.cr_from = lid then p.amount else 0).sum := by
  refine ⟨List.perm_insertionSort _ _, List.sorted_insertionSort _ _,
    fun p => ⟨rfl, rfl⟩, ?_⟩
  have hperm : List.Perm (stmtRows db w lid) ((stmtFilter db w lid).map (stmtRowOf db lid)) :=
    List.perm_insertionSort _ _
  have hd : stmtTotalDebits db w lid =
      ((stmtFilter db w lid).map fun p => if p.db_to = lid then p.amount else 0).sum := by
    calc stmtTotalDebits db w lid
        = 0 + ((stmtRows db w lid).map StmtRow.debit).sum :=
          foldl_add_eq StmtRow.debit (stmtRows db w lid) 0
      _ = ((stmtRows db w lid).map StmtRow.debit).sum := by rw [zero_add]
      _ = (((stmtFilter db w lid).map (stmtRowOf db lid)).map StmtRow.debit).sum :=
          (hperm.map StmtRow.debit).sum_eq
      _ = ((stmtFilter db w lid).map fun p => if p.db_to = lid then p.amount else 0).sum := by
          rw [List.map_map]
          rfl
  have hc : stmtTotalCredits db w lid =
      ((stmtFilter db w lid).map fun p => if p.cr_from = lid then p.amount else 0).sum := by
    calc stmtTotalCredits db w lid
        = 0 + ((stmtRows db w lid).map StmtRow.credit).sum :=
          foldl_add_eq StmtRow.credit (stmtRows db w lid) 0
      _ = ((stmtRows db w lid).map StmtRow.credit).sum := by rw [zero_add]
      _ = (((stmtFilter db w lid).map (stmtRowOf db lid)).map StmtRow.credit).sum :=
          (hperm.map StmtRow.credit).sum_eq
      _ = ((stmtFilter db w lid).map fun p => if p.cr_from = lid then p.amount else 0).sum := by
          rw [List.map_map]
          rfl
  rw [stmtNetBalance, hd, hc]

/-- The `ReportPeriod::FromTo` arm of the period-resolution match
(src/main.rs lines 186-209 and, identically, 383-406): parse both dates,
reject an inverted range, otherwise produce the closed day window. -/
def resolveFromTo (fromS toS : String) : Except WalletError (Window × String) :=
  match parseYmd fromS with
  | none => .error (.InvalidDate ("Invalid from date format: " ++ fromS ++ ". Use YYYY-MM-DD"))
  | some from_date =>
    match parseYmd toS with
    | none => .error (.InvalidDate ("Invalid to date format: " ++ toS ++ ". Use YYYY-MM-DD"))
    | some to_date =>
      if to_date.key < from_date.key then
        .error (.DateRangeError
          "The from date must be earlier than or equal to the to date.")
      else
        .ok (⟨⟨from_date, 0, 0, 0⟩, some ⟨to_date, 23, 59, 59⟩⟩,
          "From " ++ fromS ++ " to " ++ toS)

/-- `generate_spending_report` specialized to a FromTo period: the window
is resolved first and only then is the store queried, so a resolution
error is returned for every store state. -/
def generateSpendingReportFromTo (db : WalletDB) (fromS toS : String) :
    Except WalletError (List SpendRow × Rat) :=
  match resolveFromTo fromS toS with
  | .error e => .error e
  | .ok (w, _label) => .ok (spendingRows db w, spendingGrandTotal db w)

/-- `generate_ledger_report` specialized to a FromTo period
(src/main.rs lines 323-463): the ledger code and name are looked up
first, then the window is resolved, then the statement query runs. -/
def generateLedgerReportFromTo (db : WalletDB) (code : String) (fromS toS : String) :
    Except WalletError (List StmtRow × Rat) :=
  match retrieveLedgerId db code with
  | .error e => .error e
  | .ok lid =>
    match queryOne ((db.ledgers.filter fun l => l.id == lid).map fun l => l.name) with
    | .error e => .error (.Database e)
    | .ok _name =>
      match resolveFromTo fromS toS with
      | .error e => .error e
      | .ok (w, _label) => .ok (stmtRows db w lid, stmtNetBalance db w lid)

/-- A result fails with the `DateRangeError` kind. -/
def failsDateRange {α : Type} : Except WalletError α → Bool
  | .error e => e.isDateRangeError
  | .ok _ => false

/-- A result fails with the store (`Database`) error kind. -/
def failsStore {α : Type} : Except WalletError α → Bool
  | .error (.Database _) => true
  | _ => false

/-- Every failure of the ledger-id lookup is a store error. -/
theorem retrieveLedgerId_error_shape (db : WalletDB) (code : String) (e : WalletError)
    (h : retrieveLedgerId db code = .error e) : ∃ pe : PgError, e = .Database pe := by
  unfold retrieveLedgerId at h
  cases hq : queryOne ((db.ledgers.filter fun l => l.code == code).map fun l => l.id) with
  | ok i => rw [hq] at h; exact absurd h (by simp)
  | error pe =>
    rw [hq] at h
    simp only [Except.error.injEq] at h
    exact ⟨pe, h.symm⟩

/-- Claim C6: resolving `FromTo(from, to)` fails with `InvalidDate` when
either date is malformed (the from side checked first), fails with
`DateRangeError` when both parse but from > to, and otherwise yields the
window from 00:00:00 of `from` through 23:59:59 of `to` inclusive.  The
resolution is pure and precedes the report query, so in the spending
report the error comes back for every store state, and the ledger report
either fails the same way or fails earlier with a store error from its
ledger lookups — its statement query never runs. -/
theorem fromto_resolution_validation (fromS toS : String) :
    (parseYmd fromS = none →
      ∀ db : WalletDB, generateSpendingReportFromTo db fromS toS =
        .error (.InvalidDate ("Invalid from date format: " ++ fromS ++ ". Use YYYY-MM-DD"))) ∧
    (∀ fd : NaiveDate, parseYmd fromS = some fd → parseYmd toS = none →
      ∀ db : WalletDB, generateSpendingReportFromTo db fromS toS =
        .error (.InvalidDate ("Invalid to date format: " ++ toS ++ ". Use YYYY-MM-DD"))) ∧
    (∀ fd td : NaiveDate, parseYmd fromS = some fd → parseYmd toS = some td →
      td.key < fd.key →
      (∀ db : WalletDB, generateSpendingReportFromTo db fromS toS =
        .error (.DateRangeError
          "The from date must be earlier than or equal to the to date.")) ∧
      (∀ (db : WalletDB) (code : String),
        (failsDateRange (generateLedgerReportFromTo db code fromS toS) ||
         failsStore (generateLedgerReportFromTo db code fromS toS)) = true)) ∧
    (∀ fd td : NaiveDate, parseYmd fromS = some fd → parseYmd toS = some td →
      ¬td.key < fd.key →
      resolveFromTo fromS toS =
        .ok (⟨⟨fd, 0, 0, 0⟩, some ⟨td, 23, 59, 59⟩⟩, "From " ++ fromS ++ " to " ++ toS)) := by
  refine ⟨?_, ?_, ?_, ?_⟩
  · intro h db
    unfold generateSpendingReportFromTo resolveFromTo
    simp only [h]
  · intro fd h1 h2 db
    unfold generateSpendingReportFromTo resolveFromTo
    simp only [h1, h2]
  · intro fd td h1 h2 hlt
    have hres : resolveFromTo fromS toS =
        .error (.DateRangeError
          "The from date must be earlier than or equal to the to date.") := by
      unfold resolveFromTo
      simp only [h1, h2]
      rw [if_pos hlt]
    constructor
    · intro db
      unfold generateSpendingReportFromTo
      rw [hres]
    · intro db code
      cases hq1 : retrieveLedgerId db code with
      | error e =>
        obtain ⟨pe, rfl⟩ := retrieveLedgerId_error_shape db code e hq1
        simp [generateLedgerReportFromTo, hq1, failsStore]
      | ok lid =>
        cases hq2 : queryOne ((db.ledgers.filter fun l => l.id == lid).map fun l => l.name) with
        | error pe =>
          simp [generateLedgerReportFromTo, hq1, hq2, failsStore]
        | ok nm =>
          simp [generateLedgerReportFromTo, hq1, hq2, hres, failsDateRange,
            WalletError.isDateRangeError]
  · intro fd td h1 h2 hnlt
    unfold resolveFromTo
    simp only [h1, h2]
    rw [if_neg hnlt]

/-- Witness for C6: a concrete inverted range is rejected with
`DateRangeError` on an arbitrary concrete store, a malformed from-date
is rejected with `InvalidDate`, and a concrete valid range resolves to
the inclusive day window. -/
theorem fromto_resolution_validation_witness :
    generateSpendingReportFromTo ⟨[], []⟩ "2025-03-10" "2025-03-01" =
      .error (.DateRangeError
        "The from date must be earlier than or equal to the to date.") ∧
    generateSpendingReportFromTo ⟨[], []⟩ "2025-3x" "2025-03-01" =
      .error (.InvalidDate ("Invalid from date format: " ++ "2025-3x" ++ ". Use YYYY-MM-DD")) ∧
    resolveFromTo "2025-03-01" "2025-03-10" =
      .ok (⟨⟨⟨2025, 3, 1⟩, 0, 0, 0⟩, some ⟨⟨2025, 3, 10⟩, 23, 59, 59⟩⟩,
        "From " ++ "2025-03-01" ++ " to " ++ "2025-03-10") :=
  ⟨((fromto_resolution_validation "2025-03-10" "2025-03-01").2.2.1
      ⟨2025, 3, 10⟩ ⟨2025, 3, 1⟩ (by decide) (by decide) (by decide)).1 ⟨[], []⟩,
   (fromto_resolution_validation "2025-3x" "2025-03-01").1 (by decide) ⟨[], []⟩,
   (fromto_resolution_validation "2025-03-01" "2025-03-10").2.2.2
      ⟨2025, 3, 1⟩ ⟨2025, 3, 10⟩ (by decide) (by decide) (by decide)⟩

/-- Folding a conditional accumulation (only strictly positive values are
added) equals adding the sum of the positive parts (the skimp loop of
`generate_calendar_report`). -/
theorem foldl_add_pos_eq {α : Type} (g : α → Rat) (l : List α) :
    ∀ a : Rat, l.foldl (fun acc x => if 0 < g x then acc + g x else acc) a
      = a + (l.map fun x => if 0 < g x then g x else 0).sum := by
  induction l with
  | nil => intro a; simp
  | cons x l ih =>
    intro a
    by_cases h : 0 < g x
    · simp [h, ih, add_assoc]
    · simp [h, ih]

/-- One joined row's contribution in the calendar query's `SUM(CASE ...)`
(src/main.rs lines 702-724): kind-aware sign convention per ledger. -/
def calContrib (p : Proceeding) (l : Ledger) : Rat :=
  if l.kind = "LIABILITY" then
    (if p.db_to = l.id then p.amount else 0) - (if p.cr_from = l.id then p.amount else 0)
  else
    (if p.db_to = l.id then p.amount else 0)

/-- The `JOIN ledgers l ON p.db_to = l.id OR p.cr_from = l.id`: one joined
row per matching ledger, summed. -/
def joinContrib (db : WalletDB) (p : Proceeding) : Rat :=
  ((db.ledgers.filter fun l => p.db_to == l.id || p.cr_from == l.id).map (calContrib p)).sum

/-- The grouped daily amount for one calendar day (`GROUP BY
DATE(p.created_at)` over the in-window postings). -/
def dailyAmount (db : WalletDB) (w : Window) (d : NaiveDate) : Rat :=
  ((db.proceedings.filter fun p => inWindow w p.created_at && p.created_at.date == d).map
    (joinContrib db)).sum

/-- The distinct calendar days having at least one in-window posting. -/
def calDays (db : WalletDB) (w : Window) : List NaiveDate :=
  ((db.proceedings.filter fun p => inWindow w p.created_at).map
    fun p => p.created_at.date).dedup

/-- Ascending day order (`ORDER BY DATE(p.created_at)`). -/
def dayRel (a b : NaiveDate) : Prop := a.key ≤ b.key

instance : DecidableRel dayRel :=
  fun a b => inferInstanceAs (Decidable (a.key ≤ b.key))

instance : IsTotal NaiveDate dayRel :=
  ⟨fun a b => le_total a.key b.key⟩

instance : IsTrans NaiveDate dayRel :=
  ⟨fun _ _ _ hab hbc => le_trans hab hbc⟩

/-- The displayed days: the `HAVING SUM(...) != 0` clause drops days whose
kind-aware daily net is exactly zero, and the rest are ordered by day. -/
def calDisplayedDays (db : WalletDB) (w : Window) : List NaiveDate :=
  List.insertionSort dayRel
    ((calDays db w).filter fun d => decide (dailyAmount db w d ≠ 0))

/-- The printed calendar rows: each displayed day with its daily amount. -/
def calRows (db : WalletDB) (w : Window) : List (NaiveDate × Rat) :=
  (calDisplayedDays db w).map fun d => (d, dailyAmount db w d)

/-- The running grand total of the calendar report (src/main.rs line 762). -/
def calGrandTotal (db : WalletDB) (w : Window) : Rat :=
  (calRows db w).foldl (fun acc r => acc + r.2) 0

/-- The accumulated skimp when a cap is supplied (src/main.rs lines
757-787): only strictly positive differences `cap − daily_amount` are
added. -/
def calSkimp (db : WalletDB) (w : Window) (cap : Rat) : Rat :=
  (calRows db w).foldl
    (fun acc r => if 0 < cap - r.2 then acc + (cap - r.2) else acc) 0

/-- Claim C7: in the daily calendar report every displayed day has a
nonzero kind-aware daily net (days netting exactly 0 are excluded by the
HAVING clause), and with a cap the accumulated skimp equals the sum over
the displayed days of only the positive `(cap − daily_amount)` terms —
days at or over the cap contribute nothing. -/
theorem calendar_zero_days_excluded_and_skimp (db : WalletDB) (w : Window) (cap : Rat) :
    ((calDisplayedDays db w).all fun d => decide (dailyAmount db w d ≠ 0)) = true ∧
    calSkimp db w cap =
      ((calRows db w).map fun r => if 0 < cap - r.2 then cap - r.2 else 0).sum := by
  constructor
  · rw [List.all_eq_true]
    intro d hd
    rw [calDisplayedDays, List.mem_insertionSort] at hd
    exact (List.mem_filter.mp hd).2
  · calc calSkimp db w cap
        = 0 + ((calRows db w).map fun r => if 0 < cap - r.2 then cap - r.2 else 0).sum :=
          foldl_add_pos_eq (fun r : NaiveDate × Rat => cap - r.2) (calRows db w) 0
      _ = ((calRows db w).map fun r => if 0 < cap - r.2 then cap - r.2 else 0).sum := by
          rw [zero_add]

/-- Month-name lookup on an already lowercased character list: the match
of `generate_calendar_report` (src/main.rs lines 638-657). -/
def monthOfLower (l : List Char) : Option Nat :=
  if l = "january".data then some 1
  else if l = "february".data then some 2
  else if l = "march".data then some 3
  else if l = "april".data then some 4
  else if l = "may".data then some 5
  else if l = "june".data then some 6
  else if l = "july".data then some 7
  else if l = "august".data then some 8
  else if l = "september".data then some 9
  else if l = "october".data then some 10
  else if l = "november".data then some 11
  else if l = "december".data then some 12
  else none

/-- `month_str.to_lowercase()` followed by the month-name match: the
case-insensitive month parsing of the calendar command. -/
def monthFromName (s : String) : Option Nat :=
  monthOfLower (s.data.map Char.toLower)

/-- `chrono::Month::name()` for the parsed month number (and `%B` for the
current month in the no-argument default). -/
def monthName (n : Nat) : String :=
  match n with
  | 1 => "January"
  | 2 => "February"
  | 3 => "March"
  | 4 => "April"
  | 5 => "May"
  | 6 => "June"
  | 7 => "July"
  | 8 => "August"
  | 9 => "September"
  | 10 => "October"
  | 11 => "November"
  | 12 => "December"
  | _ => ""

/-- The current instant's year and month as the calendar report reads
them from `Utc::now()`. -/
structure NowInfo where
  year : Int
  month : Nat
deriving DecidableEq, Repr

/-- The target-month selection of `generate_calendar_report`
(src/main.rs lines 634-668): an explicit month name is matched
case-insensitively (unknown names rejected with `InvalidMonth`) and its
year is the previous year exactly when the named month's number exceeds
the current month's; no argument targets the current month and year. -/
def calendarTarget (monthArg : Option String) (now : NowInfo) :
    Except WalletError (Nat × Int × String) :=
  match monthArg with
  | some month_str =>
    match monthFromName month_str with
    | none =>
      .error (.InvalidMonth
        ("Invalid month: " ++ month_str ++ ". Use full month name (e.g., April)."))
    | some month_number =>
      .ok (month_number,
           if month_number > now.month then now.year - 1 else now.year,
           monthName month_number)
  | none => .ok (now.month, now.year, monthName now.month)

/-- Claim C8: month names are matched case-insensitively (the lookup
depends only on the lowercased characters), unknown names are rejected
with `InvalidMonth`, a recognised month targets the previous year exactly
when its number exceeds the current month's number and the current year
otherwise, and with no month argument the report targets the current
month and year. -/
theorem calendar_month_year_inference :
    (∀ s₁ s₂ : String, s₁.data.map Char.toLower = s₂.data.map Char.toLower →
      monthFromName s₁ = monthFromName s₂) ∧
    (∀ (s : String) (now : NowInfo), monthFromName s = none →
      calendarTarget (some s) now =
        .error (.InvalidMonth
          ("Invalid month: " ++ s ++ ". Use full month name (e.g., April)."))) ∧
    (∀ (s : String) (now : NowInfo) (n : Nat), monthFromName s = some n →
      calendarTarget (some s) now =
        .ok (n, if n > now.month then now.year - 1 else now.year, monthName n)) ∧
    (∀ now : NowInfo, calendarTarget none now = .ok (now.month, now.year, monthName now.month)) := by
  refine ⟨?_, ?_, ?_, fun now => rfl⟩
  · intro s₁ s₂ h
    unfold monthFromName
    rw [h]
  · intro s now h
    simp only [calendarTarget]
    rw [h]
  · intro s now n h
    simp only [calendarTarget]
    rw [h]

/-- Witness for C8 at concrete inputs: an upper-case future month is
assigned the previous year, a past-or-current month keeps the current
year, an unknown name is rejected, and the default targets the current
month. -/
theorem calendar_month_year_inference_witness :
    calendarTarget (some "DECEMBER") ⟨2025, 10⟩ = .ok (12, 2024, "December") ∧
    calendarTarget (some "April") ⟨2025, 10⟩ = .ok (4, 2025, "April") ∧
    calendarTarget (some "pluto") ⟨2025, 10⟩ =
      .error (.InvalidMonth
        ("Invalid month: " ++ "pluto" ++ ". Use full month name (e.g., April).")) ∧
    calendarTarget none ⟨2025, 10⟩ = .ok (10, 2025, "October") := by
  refine ⟨?_, ?_, ?_, ?_⟩
  · rw [calendar_month_year_inference.2.2.1 "DECEMBER" ⟨2025, 10⟩ 12 (by decide)]
    decide
  · rw [calendar_month_year_inference.2.2.1 "April" ⟨2025, 10⟩ 4 (by decide)]
    decide
  · exact calendar_month_year_inference.2.1 "pluto" ⟨2025, 10⟩ (by decide)
  · exact calendar_month_year_inference.2.2.2 ⟨2025, 10⟩

/-- A UTC instant as `generate_spending_report` reads it from
`Utc::now()`: days since 1970-01-01 plus the time-of-day components and
nanoseconds. -/
structure UtcInstant where
  day : Int
  hour : Nat
  minute : Nat
  second : Nat
  nano : Nat
deriving DecidableEq, Repr

/-- Nanoseconds since the 1970-01-01 00:00:00 epoch. -/
def UtcInstant.nanos (t : UtcInstant) : Int :=
  ((t.day * 86400 + t.hour * 3600 + t.minute * 60 + t.second) * 1000000000) + t.nano

/-- Model of `now.weekday().num_days_from_monday()`: day 0 of the epoch,
1970-01-01, was a Thursday, three days after Monday, and `Int.emod`
yields the nonnegative remainder chrono yields (0 = Monday .. 6 =
Sunday). -/
def UtcInstant.numDaysFromMonday (t : UtcInstant) : Int :=
  (t.day + 3) % 7

/-- The `ReportPeriod::Week` arm (src/main.rs lines 152-159 and,
identically, 349-356), in nanoseconds since the epoch: `now -
Duration::days(num_days_from_monday) + Duration::hours(0) -
Duration::minutes(minute) - Duration::seconds(second) -
Duration::nanoseconds(nanosecond)`.  Note the source adds zero hours
instead of subtracting `now.hour()`. -/
def weekReportStart (t : UtcInstant) : Int :=
  t.nanos - t.numDaysFromMonday * 86400 * 1000000000 + 0 * 3600 * 1000000000
    - (t.minute : Int) * 60 * 1000000000 - (t.second : Int) * 1000000000 - (t.nano : Int)

/-- Midnight (00:00:00) of the Monday on or before the instant, in
nanoseconds since the epoch — what the spec says the Week window starts
at. -/
def mondayMidnight (t : UtcInstant) : Int :=
  (t.day - t.numDaysFromMonday) * 86400 * 1000000000

/-- Claim C2 (refuted; the code diverges from the spec): the Week window
start computed by the source equals Monday midnight of the current ISO
week PLUS the current hour — the code adds `Duration::hours(0)` where
every other component is subtracted — so for any instant with a nonzero
hour, such as Wednesday 1970-01-07 15:30:45 UTC, the start is not
00:00:00 of Monday. -/
theorem week_start_keeps_current_hour :
    (∀ t : UtcInstant,
      weekReportStart t = mondayMidnight t + (t.hour : Int) * 3600 * 1000000000) ∧
    weekReportStart ⟨6, 15, 30, 45, 0⟩ ≠ mondayMidnight ⟨6, 15, 30, 45, 0⟩ ∧
    weekReportStart ⟨6, 15, 30, 45, 0⟩ =
      mondayMidnight ⟨6, 15, 30, 45, 0⟩ + 15 * 3600 * 1000000000 := by
  refine ⟨?_, by decide, by decide⟩
  intro t
  unfold weekReportStart mondayMidnight UtcInstant.nanos
  push_cast
  ring

end Spendlog
